import Mathlib

/-!
Verification of the report-builder logic of the trading-history dashboard
(source file: robinhood_app.py).

The script loads a table of closed positions and derives four analytical
views: a chronological cumulative P/L series, a monthly (resampled)
cumulative P/L series, per-instrument performance rankings, and a
holding-period partition by trade outcome.

Shallow embedding choices:
* a dataframe is a list of rows (a row per closed position);
* currency amounts and holding periods are rationals, so sums, means and
  the win-rate percentage are exact;
* a calendar date is encoded by its month index (year * 12 + month - 1)
  together with the day of month, ordered lexicographically; this is the
  order `pd.to_datetime` values carry, and the month index is exactly the
  bucket key used by `resample('ME')`;
* `sort_values(by='sell_date')` is modelled by `List.insertionSort` on the
  date order (a sort producing some date-ordered permutation of the rows);
* `groupby('instrument')` is modelled by the sorted list of distinct
  instrument keys with, per key, the filtered group rows, matching the
  sorted-keys contract of pandas `groupby`;
* pandas operations with `inplace=False` (sort, filter, groupby, assign,
  concat) return fresh values, so each derived view is a pure function of
  the base table.
-/

/-- Calendar date as used by the script: `monthIdx = year * 12 + (month - 1)`
is the calendar-month counter and `day` the day of month.  Lexicographic
comparison of `(monthIdx, day)` agrees with calendar order. -/
structure Date where
  monthIdx : Nat
  day : Nat
deriving DecidableEq, Repr

/-- Date comparison, the order `sort_values(by='sell_date')` sorts by. -/
def Date.ble (a b : Date) : Bool :=
  if a.monthIdx = b.monthIdx then decide (a.day ≤ b.day)
  else decide (a.monthIdx < b.monthIdx)

/-- One row of `closed_positions.csv` after loading: instrument name,
parsed sell date, signed realized profit/loss and holding period in days. -/
structure ClosedPosition where
  instrument : String
  sell_date : Date
  realized_profit_loss : ℚ
  holding_period_days : ℚ
deriving DecidableEq, Repr

/-- The loaded table `closed_positions_df`. -/
abbrev DataFrame := List ClosedPosition

/-- Row comparison by sell date, the key order of `sort_values(by='sell_date')`. -/
def rowLE (a b : ClosedPosition) : Prop :=
  Date.ble a.sell_date b.sell_date = true

instance : DecidableRel rowLE := fun a b =>
  inferInstanceAs (Decidable (Date.ble a.sell_date b.sell_date = true))

/-- Arithmetic characterization of the date comparison. -/
theorem Date.ble_iff (a b : Date) :
    Date.ble a b = true ↔
      (a.monthIdx < b.monthIdx ∨ (a.monthIdx = b.monthIdx ∧ a.day ≤ b.day)) := by
  unfold Date.ble
  by_cases h : a.monthIdx = b.monthIdx <;> simp [h]

instance : IsTotal ClosedPosition rowLE :=
  ⟨fun a b => by unfold rowLE; rw [Date.ble_iff, Date.ble_iff]; omega⟩

instance : IsTrans ClosedPosition rowLE :=
  ⟨fun a b c hab hbc => by
    unfold rowLE at *
    rw [Date.ble_iff] at *
    omega⟩

/-- Embeds `closed_positions_df['realized_profit_loss'].sum()` (line 57). -/
def total_realized_pl (df : DataFrame) : ℚ :=
  (df.map (·.realized_profit_loss)).sum

/-- Embeds `len(closed_positions_df)` (line 60). -/
def total_trades (df : DataFrame) : Nat :=
  df.length

/-- Embeds `len(closed_positions_df[closed_positions_df['realized_profit_loss'] > 0])`
(line 63). -/
def profitable_trades_count (df : DataFrame) : Nat :=
  (df.filter (fun r => decide (0 < r.realized_profit_loss))).length

/-- Embeds line 64:
`win_rate = (profitable_trades_count / total_trades) * 100 if total_trades > 0 else 0`. -/
def win_rate (df : DataFrame) : ℚ :=
  if 0 < total_trades df then
    ((profitable_trades_count df : ℚ) / (total_trades df : ℚ)) * 100
  else 0

/-- Embeds line 114: rows with strictly positive realized P/L. -/
def profitable_trades (df : DataFrame) : DataFrame :=
  df.filter (fun r => decide (0 < r.realized_profit_loss))

/-- Embeds line 115: rows with realized P/L less than or equal to zero. -/
def losing_trades (df : DataFrame) : DataFrame :=
  df.filter (fun r => decide (r.realized_profit_loss ≤ 0))

/-- Embeds lines 118-121: the two outcome groups tagged and concatenated
for the overlaid histogram. -/
def combined_holding (df : DataFrame) : List (ClosedPosition × String) :=
  (profitable_trades df).map (fun r => (r, "Profitable")) ++
    (losing_trades df).map (fun r => (r, "Losing"))

/-- Embeds line 28: `closed_positions_df.sort_values(by='sell_date')`. -/
def closed_positions_df_sorted (df : DataFrame) : DataFrame :=
  List.insertionSort rowLE df

/-- Running prefix sums starting from an accumulator, the recursion behind
`cumsum()`. -/
def cumsumFrom (acc : ℚ) : List ℚ → List ℚ
  | [] => []
  | x :: xs => (acc + x) :: cumsumFrom (acc + x) xs

/-- Embeds `.cumsum()`: the k-th output is the sum of the first k inputs. -/
def cumsum (xs : List ℚ) : List ℚ :=
  cumsumFrom 0 xs

/-- Embeds line 29: the sorted rows paired with the `cumulative_pl`
column, `closed_positions_df_sorted['realized_profit_loss'].cumsum()`. -/
def cumulative_pl_series (df : DataFrame) : List (ClosedPosition × ℚ) :=
  (closed_positions_df_sorted df).zip
    (cumsum ((closed_positions_df_sorted df).map (·.realized_profit_loss)))

/-- Month bucket key of a row, the key `resample('ME')` buckets by. -/
def monthIdxOf (r : ClosedPosition) : Nat :=
  r.sell_date.monthIdx

/-- The month keys of all rows of a table. -/
def month_list (df : DataFrame) : List Nat :=
  df.map monthIdxOf

/-- Smallest element of a nonempty list of month keys (0 on the empty list). -/
def months_lo : List Nat → Nat
  | [] => 0
  | m :: ms => ms.foldl Nat.min m

/-- Largest element of a nonempty list of month keys (0 on the empty list). -/
def months_hi : List Nat → Nat
  | [] => 0
  | m :: ms => ms.foldl Nat.max m

/-- The bucket keys produced by `resample('ME')`: every calendar month from
the earliest to the latest sell month, inclusive; empty on an empty table. -/
def monthRange (df : DataFrame) : List Nat :=
  if month_list df = [] then []
  else
    (List.range (months_hi (month_list df) - months_lo (month_list df) + 1)).map
      (fun i => months_lo (month_list df) + i)

/-- Sum of realized P/L of the rows falling in one month bucket. -/
def month_bucket_sum (df : DataFrame) (m : Nat) : ℚ :=
  ((df.filter (fun r => decide (monthIdxOf r = m))).map (·.realized_profit_loss)).sum

/-- Embeds line 32:
`closed_positions_df_sorted.set_index('sell_date').resample('ME')['realized_profit_loss'].sum()`:
one `(month, sum)` bucket per calendar month of the covered range. -/
def monthly_pl (df : DataFrame) : List (Nat × ℚ) :=
  (monthRange (closed_positions_df_sorted df)).map
    (fun m => (m, month_bucket_sum (closed_positions_df_sorted df) m))

/-- Embeds line 33: `monthly_pl['realized_profit_loss'].cumsum()`. -/
def monthly_cumulative_pl (df : DataFrame) : List ℚ :=
  cumsum ((monthly_pl df).map Prod.snd)

/-- Smallest month key of the sorted table, the first `resample` bucket. -/
def min_month (df : DataFrame) : Nat :=
  months_lo (month_list (closed_positions_df_sorted df))

/-- Largest month key of the sorted table, the last `resample` bucket. -/
def max_month (df : DataFrame) : Nat :=
  months_hi (month_list (closed_positions_df_sorted df))

/-- One row of the `instrument_performance` frame (lines 36-40). -/
structure InstrumentPerf where
  instrument : String
  total_pl : ℚ
  num_trades : Nat
  avg_holding_period : ℚ
deriving DecidableEq, Repr

/-- Lexicographic comparison of character lists by code point, the
order Python compares strings with. -/
def charListBLE : List Char → List Char → Bool
  | [], _ => true
  | _ :: _, [] => false
  | c :: cs, d :: ds =>
    if c.toNat = d.toNat then charListBLE cs ds
    else decide (c.toNat < d.toNat)

/-- String order by code points, used to sort the group keys. -/
def strLE (a b : String) : Prop :=
  charListBLE a.data b.data = true

instance : DecidableRel strLE := fun a b =>
  inferInstanceAs (Decidable (charListBLE a.data b.data = true))

/-- The code-point order is total. -/
theorem charListBLE_total : ∀ (l₁ l₂ : List Char),
    charListBLE l₁ l₂ = true ∨ charListBLE l₂ l₁ = true
  | [], _ => Or.inl rfl
  | _ :: _, [] => Or.inr rfl
  | c :: cs, d :: ds => by
    simp only [charListBLE]
    by_cases h : c.toNat = d.toNat
    · rw [if_pos h, if_pos h.symm]
      exact charListBLE_total cs ds
    · rw [if_neg h, if_neg (fun he => h he.symm)]
      by_cases h2 : c.toNat < d.toNat
      · exact Or.inl (decide_eq_true h2)
      · exact Or.inr (decide_eq_true (by omega))

/-- The code-point order is transitive. -/
theorem charListBLE_trans : ∀ (l₁ l₂ l₃ : List Char),
    charListBLE l₁ l₂ = true → charListBLE l₂ l₃ = true →
    charListBLE l₁ l₃ = true
  | [], _, _, _, _ => rfl
  | _ :: _, [], _, h12, _ => by simp [charListBLE] at h12
  | _ :: _, _ :: _, [], _, h23 => by simp [charListBLE] at h23
  | c :: cs, d :: ds, e :: es, h12, h23 => by
    simp only [charListBLE] at h12 h23 ⊢
    by_cases h1 : c.toNat = d.toNat <;> by_cases h2 : d.toNat = e.toNat
    · rw [if_pos h1] at h12
      rw [if_pos h2] at h23
      rw [if_pos (h1.trans h2)]
      exact charListBLE_trans cs ds es h12 h23
    · rw [if_pos h1] at h12
      rw [if_neg h2] at h23
      have h23n : d.toNat < e.toNat := of_decide_eq_true h23
      rw [if_neg (by omega : ¬ c.toNat = e.toNat)]
      exact decide_eq_true (by omega)
    · rw [if_neg h1] at h12
      have h12n : c.toNat < d.toNat := of_decide_eq_true h12
      rw [if_neg (by omega : ¬ c.toNat = e.toNat)]
      exact decide_eq_true (by omega)
    · rw [if_neg h1] at h12
      rw [if_neg h2] at h23
      have h12n : c.toNat < d.toNat := of_decide_eq_true h12
      have h23n : d.toNat < e.toNat := of_decide_eq_true h23
      rw [if_neg (by omega : ¬ c.toNat = e.toNat)]
      exact decide_eq_true (by omega)

instance : IsTotal String strLE :=
  ⟨fun a b => charListBLE_total a.data b.data⟩

instance : IsTrans String strLE :=
  ⟨fun a b c => charListBLE_trans a.data b.data c.data⟩

/-- The distinct instrument keys in ascending order, the group keys of
`groupby('instrument')` (pandas sorts group keys). -/
def instrument_keys (df : DataFrame) : List String :=
  List.insertionSort strLE ((df.map (·.instrument)).dedup)

/-- Embeds lines 36-40: per instrument, the summed P/L, the trade count
and the mean holding period. -/
def instrument_performance (df : DataFrame) : List InstrumentPerf :=
  (instrument_keys df).map (fun k =>
    let rows := df.filter (fun r => decide (r.instrument = k))
    { instrument := k
      total_pl := (rows.map (·.realized_profit_loss)).sum
      num_trades := rows.length
      avg_holding_period := (rows.map (·.holding_period_days)).sum / (rows.length : ℚ) })

/-- Descending total P/L order used for the top ranking (line 41). -/
def byPLDesc (a b : InstrumentPerf) : Prop :=
  b.total_pl ≤ a.total_pl

/-- Ascending total P/L order used for the bottom ranking (line 42). -/
def byPLAsc (a b : InstrumentPerf) : Prop :=
  a.total_pl ≤ b.total_pl

instance : DecidableRel byPLDesc := fun a b =>
  inferInstanceAs (Decidable (b.total_pl ≤ a.total_pl))

instance : DecidableRel byPLAsc := fun a b =>
  inferInstanceAs (Decidable (a.total_pl ≤ b.total_pl))

instance : IsTotal InstrumentPerf byPLDesc :=
  ⟨fun a b => le_total b.total_pl a.total_pl⟩

instance : IsTotal InstrumentPerf byPLAsc :=
  ⟨fun a b => le_total a.total_pl b.total_pl⟩

instance : IsTrans InstrumentPerf byPLDesc :=
  ⟨fun _ _ _ hab hbc => le_trans hbc hab⟩

instance : IsTrans InstrumentPerf byPLAsc :=
  ⟨fun _ _ _ hab hbc => le_trans hab hbc⟩

/-- Embeds line 41: sort by total P/L descending, keep the first 10. -/
def top_10_profitable (df : DataFrame) : List InstrumentPerf :=
  (List.insertionSort byPLDesc (instrument_performance df)).take 10

/-- Embeds line 42: sort by total P/L ascending, keep the first 10. -/
def bottom_10_losing (df : DataFrame) : List InstrumentPerf :=
  (List.insertionSort byPLAsc (instrument_performance df)).take 10

/-- Outcome of the attempted read and parse of `closed_positions.csv`
inside the `try` block of `load_data` (lines 11-22): the file may be
missing (`pd.read_csv` raises `FileNotFoundError`), present but
unparsable (`pd.read_csv` or `pd.to_datetime` raises a different
exception), or read and parsed successfully. -/
inductive ReadResult where
  | fileNotFound
  | parseFailure
  | ok (df : DataFrame)
deriving DecidableEq

/-- Observable outcome of running `load_data`: the parsed table is
returned, or the script halts after showing an error message
(`st.error` followed by `st.stop`), or an exception escapes uncaught. -/
inductive LoadOutcome where
  | loaded (df : DataFrame)
  | halted (message : String)
  | uncaughtException
deriving DecidableEq

/-- Embeds `load_data` (lines 11-22): the `except FileNotFoundError`
clause turns exactly a missing file into the user-visible message and
halt; any other exception from the `try` block propagates uncaught. -/
def load_data : ReadResult → LoadOutcome
  | .fileNotFound =>
      .halted "Error: Data files not found. Make sure 'closed_positions.csv' (and others) are in the same directory."
  | .parseFailure => .uncaughtException
  | .ok df => .loaded df

/-- The three-trade example table of the specification: realized P/L
100, -50, 25 on strictly increasing dates, distinct instruments. -/
def exampleDf : DataFrame :=
  [ { instrument := "AAA", sell_date := ⟨240, 3⟩, realized_profit_loss := 100,
      holding_period_days := 5 },
    { instrument := "BBB", sell_date := ⟨240, 17⟩, realized_profit_loss := -50,
      holding_period_days := 12 },
    { instrument := "CCC", sell_date := ⟨241, 2⟩, realized_profit_loss := 25,
      holding_period_days := 3 } ]

/-- Two-trade table whose sell months leave a gap: months 240 and 242,
so the resampled range has three buckets but only two months trade. -/
def gapDf : DataFrame :=
  [ { instrument := "AAA", sell_date := ⟨240, 10⟩, realized_profit_loss := 7,
      holding_period_days := 1 },
    { instrument := "BBB", sell_date := ⟨242, 4⟩, realized_profit_loss := -3,
      holding_period_days := 2 } ]

/-- C1: the reported win rate is `count(realized_profit_loss > 0) / total * 100`
for a positive trade count and `0` for an empty table, and it always lies
in the interval `[0, 100]`. -/
theorem win_rate_formula_and_bounds (df : DataFrame) :
    win_rate df =
      (if total_trades df = 0 then 0
       else ((profitable_trades_count df : ℚ) / (total_trades df : ℚ)) * 100) ∧
    0 ≤ win_rate df ∧ win_rate df ≤ 100 := by
  have hle : profitable_trades_count df ≤ total_trades df :=
    List.length_filter_le _ _
  by_cases h : total_trades df = 0
  · refine ⟨by simp [win_rate, h], by simp [win_rate, h], by simp [win_rate, h]⟩
  · have hpos : 0 < total_trades df := Nat.pos_of_ne_zero h
    have hq : (0 : ℚ) < (total_trades df : ℚ) := by exact_mod_cast hpos
    have hratio : ((profitable_trades_count df : ℚ) / (total_trades df : ℚ)) ≤ 1 := by
      rw [div_le_one hq]
      exact_mod_cast hle
    have hnn : (0 : ℚ) ≤ (profitable_trades_count df : ℚ) / (total_trades df : ℚ) :=
      div_nonneg (Nat.cast_nonneg _) (le_of_lt hq)
    refine ⟨by simp [win_rate, hpos, h], ?_, ?_⟩
    · rw [win_rate, if_pos hpos]
      exact mul_nonneg hnn (by norm_num)
    · rw [win_rate, if_pos hpos]
      calc ((profitable_trades_count df : ℚ) / (total_trades df : ℚ)) * 100
          ≤ 1 * 100 := mul_le_mul_of_nonneg_right hratio (by norm_num)
        _ = 100 := by norm_num

/-- C7: the holding-period partition puts every row of the table in
exactly one of the two outcome groups, and the sizes of the two groups
add up to the row count of the table. -/
theorem holding_period_partition_exact (df : DataFrame) :
    (profitable_trades df).length + (losing_trades df).length = df.length ∧
    ∀ r, r ∈ df → (r ∈ profitable_trades df ↔ r ∉ losing_trades df) := by
  constructor
  · have h1 : (profitable_trades df).length =
        df.countP (fun r => decide (0 < r.realized_profit_loss)) :=
      (List.countP_eq_length_filter _ _).symm
    have h2 : (losing_trades df).length =
        df.countP (fun r => decide (r.realized_profit_loss ≤ 0)) :=
      (List.countP_eq_length_filter _ _).symm
    have hcongr :
        df.countP (fun r => decide (r.realized_profit_loss ≤ 0)) =
          df.countP
            (fun r => decide ¬((fun s : ClosedPosition =>
              decide (0 < s.realized_profit_loss)) r = true)) := by
      apply List.countP_congr
      intro r _
      by_cases hq : 0 < r.realized_profit_loss
      · simp [hq, not_le.mpr hq]
      · simp [hq, not_lt.mp hq]
    rw [h1, h2, hcongr]
    exact (List.length_eq_countP_add_countP _ _).symm
  · intro r hr
    unfold profitable_trades losing_trades
    simp only [List.mem_filter, hr, true_and, decide_eq_true_eq]
    exact not_le.symm

/-- C7 witness: the partition facts evaluated on the example table at
its first row. -/
theorem holding_period_partition_exact_witness :
    (profitable_trades exampleDf).length + (losing_trades exampleDf).length =
      exampleDf.length ∧
    ({ instrument := "AAA", sell_date := ⟨240, 3⟩, realized_profit_loss := 100,
       holding_period_days := 5 } ∈ profitable_trades exampleDf ↔
     { instrument := "AAA", sell_date := ⟨240, 3⟩, realized_profit_loss := 100,
       holding_period_days := 5 } ∉ losing_trades exampleDf) :=
  ⟨(holding_period_partition_exact exampleDf).1,
   (holding_period_partition_exact exampleDf).2 _ (by decide)⟩

/-- C5: the empty table produces zero totals, zero trades, zero win
rate, and every derived view empty; in the embedding every one of these
functions is total, so no error is raised on the empty table. -/
theorem empty_table_all_views_empty :
    total_realized_pl [] = 0 ∧ total_trades [] = 0 ∧ win_rate [] = 0 ∧
    closed_positions_df_sorted [] = [] ∧ cumulative_pl_series [] = [] ∧
    monthly_pl [] = [] ∧ monthly_cumulative_pl [] = [] ∧
    instrument_performance [] = [] ∧ top_10_profitable [] = [] ∧
    bottom_10_losing [] = [] ∧ profitable_trades [] = [] ∧
    losing_trades [] = [] ∧ combined_holding [] = [] := by
  decide

/-- C4 counterexample: an unparsable file does not produce the
user-visible halt message; the exception escapes `load_data` uncaught,
because only `FileNotFoundError` is caught. -/
theorem load_data_unparsable_not_halted :
    ¬ ∃ msg, load_data ReadResult.parseFailure = LoadOutcome.halted msg := by
  rintro ⟨msg, hmsg⟩
  simp [load_data] at hmsg

/-- C4 amended: a missing input file, and only a missing input file,
yields the user-visible error message and halt; an unparsable file, and
only an unparsable file, escapes as an uncaught exception, and in
neither case is a table returned for further processing. -/
theorem load_data_error_classification (r : ReadResult) :
    ((∃ msg, load_data r = LoadOutcome.halted msg) ↔ r = ReadResult.fileNotFound) ∧
    (load_data r = LoadOutcome.uncaughtException ↔ r = ReadResult.parseFailure) := by
  cases r <;> simp [load_data]

/-- The prefix-sum list has the same length as its input. -/
theorem cumsumFrom_length : ∀ (xs : List ℚ) (acc : ℚ),
    (cumsumFrom acc xs).length = xs.length
  | [], _ => rfl
  | _ :: t, acc => by
    rw [cumsumFrom]
    simp [cumsumFrom_length t]

/-- The last prefix sum is the accumulator plus the total of the list. -/
theorem cumsumFrom_getLast : ∀ (xs : List ℚ) (acc : ℚ), xs ≠ [] →
    (cumsumFrom acc xs).getLast? = some (acc + xs.sum)
  | [], _, h => absurd rfl h
  | [x], acc, _ => by simp [cumsumFrom]
  | x :: y :: u, acc, _ => by
    have ih := cumsumFrom_getLast (y :: u) (acc + x) (by simp)
    rw [cumsumFrom, cumsumFrom]
    rw [List.getLast?_cons_cons]
    rw [← cumsumFrom, ih]
    simp [add_assoc]

/-- The last value of `cumsum` is the total of the list. -/
theorem cumsum_getLast (xs : List ℚ) (h : xs ≠ []) :
    (cumsum xs).getLast? = some xs.sum := by
  rw [cumsum, cumsumFrom_getLast xs 0 h, zero_add]

/-- Sorting leaves the realized P/L total unchanged. -/
theorem total_realized_pl_sorted (df : DataFrame) :
    total_realized_pl (closed_positions_df_sorted df) = total_realized_pl df := by
  unfold total_realized_pl closed_positions_df_sorted
  exact ((List.perm_insertionSort rowLE df).map (·.realized_profit_loss)).sum_eq

/-- The sorted table is a permutation of the loaded table. -/
theorem closed_positions_df_sorted_perm (df : DataFrame) :
    (closed_positions_df_sorted df).Perm df :=
  List.perm_insertionSort rowLE df

/-- The sorted table is nonempty exactly when the loaded table is. -/
theorem closed_positions_df_sorted_ne_nil (df : DataFrame) (h : df ≠ []) :
    closed_positions_df_sorted df ≠ [] := by
  intro hc
  apply h
  have hp := closed_positions_df_sorted_perm df
  rw [hc] at hp
  exact hp.symm.eq_nil

/-- The row component of the chronological series is the sorted table. -/
theorem cumulative_pl_series_fst (df : DataFrame) :
    (cumulative_pl_series df).map Prod.fst = closed_positions_df_sorted df := by
  apply List.map_fst_zip
  rw [cumsum, cumsumFrom_length, List.length_map]

/-- The cumulative column of the chronological series is the prefix-sum
of the sorted realized P/L column. -/
theorem cumulative_pl_series_snd (df : DataFrame) :
    (cumulative_pl_series df).map Prod.snd =
      cumsum ((closed_positions_df_sorted df).map (·.realized_profit_loss)) := by
  apply List.map_snd_zip
  rw [cumsum, cumsumFrom_length, List.length_map]

/-- The final chronological cumulative P/L is the total realized P/L. -/
theorem chronological_last_cumulative (df : DataFrame) (h : df ≠ []) :
    ((cumulative_pl_series df).map Prod.snd).getLast? =
      some (total_realized_pl df) := by
  rw [cumulative_pl_series_snd]
  have hne : (closed_positions_df_sorted df).map
      (fun r : ClosedPosition => r.realized_profit_loss) ≠ [] := by
    intro hc
    exact closed_positions_df_sorted_ne_nil df h (List.map_eq_nil_iff.mp hc)
  rw [cumsum_getLast _ hne]
  rw [show ((closed_positions_df_sorted df).map
      (fun r : ClosedPosition => r.realized_profit_loss)).sum =
      total_realized_pl (closed_positions_df_sorted df) from rfl]
  rw [total_realized_pl_sorted]

/-- C2: for a nonempty table the chronological series consists of the
rows reordered ascending by sell date, carries as `cumulative_pl` the
running prefix sums of `realized_profit_loss`, and its final cumulative
value is the total realized P/L. -/
theorem cumulative_series_spec (df : DataFrame) (h : df ≠ []) :
    ((cumulative_pl_series df).map Prod.fst).Perm df ∧
    List.Pairwise rowLE ((cumulative_pl_series df).map Prod.fst) ∧
    (cumulative_pl_series df).map Prod.snd =
      cumsum (((cumulative_pl_series df).map Prod.fst).map
        (·.realized_profit_loss)) ∧
    ((cumulative_pl_series df).map Prod.snd).getLast? =
      some (total_realized_pl df) := by
  refine ⟨?_, ?_, ?_, chronological_last_cumulative df h⟩
  · rw [cumulative_pl_series_fst]
    exact closed_positions_df_sorted_perm df
  · rw [cumulative_pl_series_fst]
    exact List.sorted_insertionSort rowLE df
  · rw [cumulative_pl_series_fst, cumulative_pl_series_snd]

/-- C2 witness: the chronological-series facts evaluated on the
three-trade example table. -/
theorem cumulative_series_spec_witness :
    ((cumulative_pl_series exampleDf).map Prod.fst).Perm exampleDf ∧
    List.Pairwise rowLE ((cumulative_pl_series exampleDf).map Prod.fst) ∧
    (cumulative_pl_series exampleDf).map Prod.snd =
      cumsum (((cumulative_pl_series exampleDf).map Prod.fst).map
        (·.realized_profit_loss)) ∧
    ((cumulative_pl_series exampleDf).map Prod.snd).getLast? =
      some (total_realized_pl exampleDf) :=
  cumulative_series_spec exampleDf (by decide)

/-- Folding with `Nat.min` never exceeds the seed. -/
theorem foldl_min_le_seed : ∀ (t : List Nat) (s : Nat), t.foldl Nat.min s ≤ s
  | [], s => Nat.le_refl s
  | n :: t, s =>
    Nat.le_trans (foldl_min_le_seed t (Nat.min s n)) (Nat.min_le_left s n)

/-- Folding with `Nat.min` never exceeds any list element. -/
theorem foldl_min_le_mem : ∀ (t : List Nat) (s x : Nat), x ∈ t →
    t.foldl Nat.min s ≤ x
  | [], _, _, hx => absurd hx (by simp)
  | n :: t, s, x, hx => by
    rcases List.mem_cons.mp hx with rfl | hxt
    · exact Nat.le_trans (foldl_min_le_seed t (Nat.min s x)) (Nat.min_le_right s x)
    · exact foldl_min_le_mem t (Nat.min s n) x hxt

/-- Folding with `Nat.max` is at least the seed. -/
theorem seed_le_foldl_max : ∀ (t : List Nat) (s : Nat), s ≤ t.foldl Nat.max s
  | [], s => Nat.le_refl s
  | n :: t, s =>
    Nat.le_trans (Nat.le_max_left s n) (seed_le_foldl_max t (Nat.max s n))

/-- Folding with `Nat.max` is at least any list element. -/
theorem mem_le_foldl_max : ∀ (t : List Nat) (s x : Nat), x ∈ t →
    x ≤ t.foldl Nat.max s
  | [], _, _, hx => absurd hx (by simp)
  | n :: t, s, x, hx => by
    rcases List.mem_cons.mp hx with rfl | hxt
    · exact Nat.le_trans (Nat.le_max_right s x) (seed_le_foldl_max t (Nat.max s x))
    · exact mem_le_foldl_max t (Nat.max s n) x hxt

/-- The lower bucket bound is below every month key of the list. -/
theorem months_lo_le (ms : List Nat) (x : Nat) (hx : x ∈ ms) :
    months_lo ms ≤ x := by
  cases ms with
  | nil => cases hx
  | cons m t =>
    rcases List.mem_cons.mp hx with rfl | hxt
    · exact foldl_min_le_seed t x
    · exact foldl_min_le_mem t m x hxt

/-- The upper bucket bound is above every month key of the list. -/
theorem le_months_hi (ms : List Nat) (x : Nat) (hx : x ∈ ms) :
    x ≤ months_hi ms := by
  cases ms with
  | nil => cases hx
  | cons m t =>
    rcases List.mem_cons.mp hx with rfl | hxt
    · exact seed_le_foldl_max t x
    · exact mem_le_foldl_max t m x hxt

/-- On a nonempty key list the lower bound is below the upper bound. -/
theorem months_lo_le_months_hi (ms : List Nat) (h : ms ≠ []) :
    months_lo ms ≤ months_hi ms := by
  cases ms with
  | nil => cases h rfl
  | cons m t =>
    exact Nat.le_trans (months_lo_le (m :: t) m (by simp))
      (le_months_hi (m :: t) m (by simp))

/-- Membership in the resampled bucket range is exactly lying between
the earliest and the latest sell month. -/
theorem mem_monthRange (df : DataFrame) (h : month_list df ≠ []) (m : Nat) :
    m ∈ monthRange df ↔
      (months_lo (month_list df) ≤ m ∧ m ≤ months_hi (month_list df)) := by
  have hlh := months_lo_le_months_hi (month_list df) h
  unfold monthRange
  rw [if_neg h]
  simp only [List.mem_map, List.mem_range]
  constructor
  · rintro ⟨i, hi, rfl⟩
    omega
  · rintro ⟨h1, h2⟩
    exact ⟨m - months_lo (month_list df), by omega, by omega⟩

/-- The resampled bucket keys are pairwise distinct. -/
theorem monthRange_nodup (df : DataFrame) : (monthRange df).Nodup := by
  unfold monthRange
  by_cases h : month_list df = []
  · simp [h]
  · rw [if_neg h]
    exact List.Nodup.map (fun a b hab => by omega) (List.nodup_range _)

/-- The bucket range is nonempty as soon as the table is. -/
theorem monthRange_ne_nil (df : DataFrame) (h : df ≠ []) :
    monthRange df ≠ [] := by
  have hml : month_list df ≠ [] := by
    unfold month_list
    intro hc
    exact h (List.map_eq_nil_iff.mp hc)
  unfold monthRange
  rw [if_neg hml]
  intro hc
  have := congrArg List.length hc
  simp at this

/-- Summing an indicator bucket over a duplicate-free key list that
contains the key recovers the value. -/
theorem sum_map_ite_of_nodup : ∀ (M : List Nat), M.Nodup → ∀ k : Nat,
    k ∈ M → ∀ v : ℚ, (M.map (fun m => if k = m then v else 0)).sum = v
  | [], _, _, hk, _ => absurd hk (by simp)
  | m :: t, hnd, k, hk, v => by
    rcases List.mem_cons.mp hk with rfl | hkt
    · simp only [List.map_cons, List.sum_cons, if_pos rfl]
      have hz : (t.map (fun m' => if k = m' then v else 0)).sum = 0 := by
        apply List.sum_eq_zero
        intro x hx
        rcases List.mem_map.mp hx with ⟨m', hm', rfl⟩
        have hkm : k ≠ m' := fun he => (List.nodup_cons.mp hnd).1 (he ▸ hm')
        simp [hkm]
      simp [hz]
    · have hkm : k ≠ m := by
        intro he
        exact (List.nodup_cons.mp hnd).1 (he ▸ hkt)
      simp only [List.map_cons, List.sum_cons, if_neg hkm]
      rw [sum_map_ite_of_nodup t (List.nodup_cons.mp hnd).2 k hkt v, zero_add]

/-- Splitting one row off a month bucket sum. -/
theorem month_bucket_sum_cons (r : ClosedPosition) (t : DataFrame) (m : Nat) :
    month_bucket_sum (r :: t) m =
      (if monthIdxOf r = m then r.realized_profit_loss else 0) +
        month_bucket_sum t m := by
  unfold month_bucket_sum
  by_cases h : monthIdxOf r = m
  · simp [List.filter_cons, h]
  · simp [List.filter_cons, h]

/-- Pointwise sums distribute over a mapped addition. -/
theorem sum_map_add (M : List Nat) (f g : Nat → ℚ) :
    (M.map (fun m => f m + g m)).sum = (M.map f).sum + (M.map g).sum := by
  induction M with
  | nil => simp
  | cons m t ih => simp [ih]; ring

/-- Summing all bucket sums over a duplicate-free key list covering
every row recovers the total realized P/L. -/
theorem sum_buckets : ∀ (df : DataFrame) (M : List Nat), M.Nodup →
    (∀ r ∈ df, monthIdxOf r ∈ M) →
    (M.map (fun m => month_bucket_sum df m)).sum = total_realized_pl df
  | [], M, _, _ => by
    have hz : (M.map (fun m => month_bucket_sum [] m)).sum = 0 := by
      apply List.sum_eq_zero
      intro x hx
      rcases List.mem_map.mp hx with ⟨m, _, rfl⟩
      rfl
    rw [hz]
    rfl
  | r :: t, M, hnd, hcov => by
    have hrec := sum_buckets t M hnd (fun s hs => hcov s (List.mem_cons_of_mem r hs))
    have hsplit : (M.map (fun m => month_bucket_sum (r :: t) m)).sum =
        (M.map (fun m => if monthIdxOf r = m then r.realized_profit_loss else 0)).sum +
          (M.map (fun m => month_bucket_sum t m)).sum := by
      rw [show (fun m => month_bucket_sum (r :: t) m) =
          (fun m => (if monthIdxOf r = m then r.realized_profit_loss else 0) +
            month_bucket_sum t m) from funext (month_bucket_sum_cons r t)]
      exact sum_map_add M _ _
    rw [hsplit, hrec,
      sum_map_ite_of_nodup M hnd (monthIdxOf r) (hcov r (by simp)) _]
    unfold total_realized_pl
    simp

/-- Every row of the sorted table falls in the resampled bucket range. -/
theorem monthRange_covers (s : DataFrame) (hsne : s ≠ []) :
    ∀ r ∈ s, monthIdxOf r ∈ monthRange s := by
  intro r hr
  have hml : month_list s ≠ [] := by
    unfold month_list
    intro hc
    exact hsne (List.map_eq_nil_iff.mp hc)
  rw [mem_monthRange s hml]
  have hmem : monthIdxOf r ∈ month_list s := by
    unfold month_list
    exact List.mem_map_of_mem monthIdxOf hr
  exact ⟨months_lo_le _ _ hmem, le_months_hi _ _ hmem⟩

/-- The bucket values of the monthly series are the bucket sums over the
sorted table. -/
theorem monthly_pl_snd (df : DataFrame) :
    (monthly_pl df).map Prod.snd =
      (monthRange (closed_positions_df_sorted df)).map
        (fun m => month_bucket_sum (closed_positions_df_sorted df) m) := by
  unfold monthly_pl
  rw [List.map_map]
  rfl

/-- The bucket keys of the monthly series are the resampled range. -/
theorem monthly_pl_fst (df : DataFrame) :
    (monthly_pl df).map Prod.fst = monthRange (closed_positions_df_sorted df) := by
  unfold monthly_pl
  rw [List.map_map]
  exact List.map_id _

/-- C3: for a nonempty table the final monthly cumulative P/L and the
final chronological cumulative P/L agree, and both equal the total
realized P/L. -/
theorem monthly_last_matches_chronological (df : DataFrame) (h : df ≠ []) :
    (monthly_cumulative_pl df).getLast? = some (total_realized_pl df) ∧
    ((cumulative_pl_series df).map Prod.snd).getLast? =
      some (total_realized_pl df) := by
  refine ⟨?_, chronological_last_cumulative df h⟩
  unfold monthly_cumulative_pl
  rw [monthly_pl_snd]
  have hsne : closed_positions_df_sorted df ≠ [] :=
    closed_positions_df_sorted_ne_nil df h
  have hrne : monthRange (closed_positions_df_sorted df) ≠ [] :=
    monthRange_ne_nil _ hsne
  have hne2 : (monthRange (closed_positions_df_sorted df)).map
      (fun m => month_bucket_sum (closed_positions_df_sorted df) m) ≠ [] := by
    intro hc
    exact hrne (List.map_eq_nil_iff.mp hc)
  rw [cumsum_getLast _ hne2]
  rw [sum_buckets (closed_positions_df_sorted df) _ (monthRange_nodup _)
    (monthRange_covers _ hsne)]
  rw [total_realized_pl_sorted]

/-- C3 witness: the two final cumulative values evaluated on the
three-trade example table. -/
theorem monthly_last_matches_chronological_witness :
    (monthly_cumulative_pl exampleDf).getLast? =
      some (total_realized_pl exampleDf) ∧
    ((cumulative_pl_series exampleDf).map Prod.snd).getLast? =
      some (total_realized_pl exampleDf) :=
  monthly_last_matches_chronological exampleDf (by decide)

/-- A lower bound of the seed and all elements bounds the min fold. -/
theorem le_foldl_min : ∀ (t : List Nat) (s x : Nat), x ≤ s →
    (∀ y ∈ t, x ≤ y) → x ≤ t.foldl Nat.min s
  | [], _, _, hs, _ => hs
  | n :: t, s, x, hs, hall =>
    le_foldl_min t (Nat.min s n) x
      (Nat.le_min.mpr ⟨hs, hall n (by simp)⟩)
      (fun y hy => hall y (List.mem_cons_of_mem n hy))

/-- An upper bound of the seed and all elements bounds the max fold. -/
theorem foldl_max_le : ∀ (t : List Nat) (s x : Nat), s ≤ x →
    (∀ y ∈ t, y ≤ x) → t.foldl Nat.max s ≤ x
  | [], _, _, hs, _ => hs
  | n :: t, s, x, hs, hall =>
    foldl_max_le t (Nat.max s n) x
      (Nat.max_le.mpr ⟨hs, hall n (by simp)⟩)
      (fun y hy => hall y (List.mem_cons_of_mem n hy))

/-- The lower bucket bound is the minimum of the month keys. -/
theorem months_lo_eq (ms : List Nat) (x : Nat) (hx : x ∈ ms)
    (hlb : ∀ y ∈ ms, x ≤ y) : months_lo ms = x := by
  cases ms with
  | nil => cases hx
  | cons m t =>
    refine Nat.le_antisymm (months_lo_le _ _ hx) ?_
    exact le_foldl_min t m x (hlb m (by simp))
      (fun y hy => hlb y (List.mem_cons_of_mem m hy))

/-- The upper bucket bound is the maximum of the month keys. -/
theorem months_hi_eq (ms : List Nat) (x : Nat) (hx : x ∈ ms)
    (hub : ∀ y ∈ ms, y ≤ x) : months_hi ms = x := by
  cases ms with
  | nil => cases hx
  | cons m t =>
    refine Nat.le_antisymm ?_ (le_months_hi _ _ hx)
    exact foldl_max_le t m x (hub m (by simp))
      (fun y hy => hub y (List.mem_cons_of_mem m hy))

/-- A duplicate-free list included in another list is no longer than it. -/
theorem nodup_subset_length_le : ∀ (l₁ l₂ : List Nat), l₁.Nodup →
    (∀ x ∈ l₁, x ∈ l₂) → l₁.length ≤ l₂.length
  | [], _, _, _ => Nat.zero_le _
  | x :: t, l₂, hnd, hsub => by
    have hx : x ∈ l₂ := hsub x (by simp)
    have hrec := nodup_subset_length_le t (l₂.erase x)
      (List.nodup_cons.mp hnd).2
      (fun y hy => by
        have hyx : y ≠ x := fun he => (List.nodup_cons.mp hnd).1 (he ▸ hy)
        exact (List.mem_erase_of_ne hyx).mpr
          (hsub y (List.mem_cons_of_mem x hy)))
    have hlen : (l₂.erase x).length = l₂.length - 1 :=
      List.length_erase_of_mem hx
    have hpos : 0 < l₂.length := List.length_pos_of_mem hx
    simp only [List.length_cons]
    omega

/-- A date below another has a month key below the other's. -/
theorem rowLE_monthIdx {a b : ClosedPosition} (h : rowLE a b) :
    monthIdxOf a ≤ monthIdxOf b := by
  unfold rowLE at h
  rw [Date.ble_iff] at h
  unfold monthIdxOf
  omega

/-- C10: for a nonempty table the monthly series has exactly one bucket
per calendar month between the month of the earliest sell date (the head
of the sorted table) and the month of the latest sell date (the last row
of the sorted table); a month in that range with no trades carries sum
0, and hence the bucket count is at least the number of distinct trading
months. -/
theorem monthly_buckets_cover_calendar_range (df : DataFrame) (h : df ≠ []) :
    (closed_positions_df_sorted df).head?.map monthIdxOf =
      some (min_month df) ∧
    (closed_positions_df_sorted df).getLast?.map monthIdxOf =
      some (max_month df) ∧
    ((monthly_pl df).map Prod.fst).Nodup ∧
    (∀ m : Nat, m ∈ (monthly_pl df).map Prod.fst ↔
      (min_month df ≤ m ∧ m ≤ max_month df)) ∧
    (∀ p ∈ monthly_pl df, (∀ r ∈ df, monthIdxOf r ≠ p.1) → p.2 = 0) ∧
    (df.map monthIdxOf).dedup.length ≤ (monthly_pl df).length := by
  have hsne : closed_positions_df_sorted df ≠ [] :=
    closed_positions_df_sorted_ne_nil df h
  have hml : month_list (closed_positions_df_sorted df) ≠ [] := by
    unfold month_list
    intro hc
    exact hsne (List.map_eq_nil_iff.mp hc)
  have hsorted : List.Pairwise rowLE (closed_positions_df_sorted df) :=
    List.sorted_insertionSort rowLE df
  refine ⟨?_, ?_, ?_, ?_, ?_, ?_⟩
  · cases hs : closed_positions_df_sorted df with
    | nil => cases hsne hs
    | cons r0 rest =>
      unfold min_month
      rw [hs]
      have hlo : months_lo (month_list (r0 :: rest)) = monthIdxOf r0 := by
        apply months_lo_eq
        · exact List.mem_map_of_mem monthIdxOf (List.mem_cons_self r0 rest)
        · intro y hy
          unfold month_list at hy
          rcases List.mem_map.mp hy with ⟨r', hr', rfl⟩
          rcases List.mem_cons.mp hr' with rfl | hr'rest
          · exact Nat.le_refl _
          · rw [hs] at hsorted
            exact rowLE_monthIdx ((List.pairwise_cons.mp hsorted).1 r' hr'rest)
      rw [hlo]
      rfl
  · rcases List.eq_nil_or_concat (closed_positions_df_sorted df) with hs | ⟨l', x, hs⟩
    · cases hsne hs
    · rw [show List.concat l' x = l' ++ [x] from List.concat_eq_append l' x] at hs
      unfold max_month
      rw [hs, List.getLast?_concat]
      have hhi : months_hi (month_list (l' ++ [x])) = monthIdxOf x := by
        apply months_hi_eq
        · exact List.mem_map_of_mem monthIdxOf (by simp)
        · intro y hy
          unfold month_list at hy
          rcases List.mem_map.mp hy with ⟨r', hr', rfl⟩
          rw [hs] at hsorted
          rcases List.mem_append.mp hr' with hr'l | hr'x
          · have hrel := (List.pairwise_append.mp hsorted).2.2 r' hr'l x (by simp)
            exact rowLE_monthIdx hrel
          · rcases List.mem_singleton.mp hr'x with rfl
            exact Nat.le_refl _
      rw [hhi]
      rfl
  · rw [monthly_pl_fst]
    exact monthRange_nodup _
  · intro m
    rw [monthly_pl_fst, mem_monthRange _ hml]
    exact Iff.rfl
  · intro p hp hnone
    rcases List.mem_map.mp hp with ⟨m, _, rfl⟩
    unfold month_bucket_sum
    rw [List.filter_eq_nil_iff.mpr ?_]
    · rfl
    · intro r hr
      simp only [decide_eq_true_eq]
      exact hnone r (((closed_positions_df_sorted_perm df).mem_iff).mp hr)
  · have hlen : (monthly_pl df).length =
        (monthRange (closed_positions_df_sorted df)).length := by
      unfold monthly_pl
      rw [List.length_map]
    rw [hlen]
    apply nodup_subset_length_le _ _ (List.nodup_dedup _)
    intro x hx
    have hx2 : x ∈ df.map monthIdxOf := (List.mem_dedup).mp hx
    rcases List.mem_map.mp hx2 with ⟨r, hr, rfl⟩
    exact monthRange_covers _ hsne r
      (((closed_positions_df_sorted_perm df).mem_iff).mpr hr)

/-- C10 witness: the binder-free bucket facts evaluated on the gapped
two-trade table, whose monthly series has three buckets while only two
months contain trades. -/
theorem monthly_buckets_cover_calendar_range_witness :
    (closed_positions_df_sorted gapDf).head?.map monthIdxOf =
      some (min_month gapDf) ∧
    ((monthly_pl gapDf).map Prod.fst).Nodup ∧
    (gapDf.map monthIdxOf).dedup.length ≤ (monthly_pl gapDf).length :=
  ⟨(monthly_buckets_cover_calendar_range gapDf (by decide)).1,
   (monthly_buckets_cover_calendar_range gapDf (by decide)).2.2.1,
   (monthly_buckets_cover_calendar_range gapDf (by decide)).2.2.2.2.2⟩

/-- In a list sorted so that no later element strictly precedes an
earlier one, an element of the first n positions is strictly preceded by
fewer than n elements of the whole list. -/
theorem countP_lt_of_mem_take {α : Type} (q : α → α → Bool)
    (hirr : ∀ a, q a a = false) :
    ∀ (L : List α) (n : Nat) (x : α),
      L.Pairwise (fun a b => q b a = false) →
      x ∈ L.take n → L.countP (fun z => q z x) < n
  | [], _, _, _, hx => absurd hx (by simp)
  | _ :: _, 0, _, _, hx => absurd hx (by simp)
  | a :: t, n + 1, x, hp, hx => by
    rw [List.take_succ_cons] at hx
    rw [List.countP_cons]
    rcases List.mem_cons.mp hx with rfl | hxt
    · have hz : t.countP (fun z => q z x) = 0 := by
        rw [List.countP_eq_zero]
        intro z hz2
        simp [(List.pairwise_cons.mp hp).1 z hz2]
      simp [hz, hirr x]
    · have ihr := countP_lt_of_mem_take q hirr t n x
        (List.pairwise_cons.mp hp).2 hxt
      have hone : (if q a x = true then 1 else 0) ≤ 1 := by
        split
        · exact Nat.le_refl 1
        · exact Nat.zero_le 1
      omega

/-- Every value of the bottom ranking is below every value of the top
ranking once there are more than 20 distinct instruments. -/
theorem top_bottom_separation (df : DataFrame)
    (h : 20 < (instrument_performance df).length) :
    ∀ y ∈ bottom_10_losing df, ∀ x ∈ top_10_profitable df,
      y.total_pl ≤ x.total_pl := by
  intro y hy x hx
  by_contra hcon
  rw [not_le] at hcon
  have hAp : List.Pairwise
      (fun a b : InstrumentPerf => decide (b.total_pl < a.total_pl) = false)
      (List.insertionSort byPLAsc (instrument_performance df)) := by
    apply List.Pairwise.imp ?_
      (List.sorted_insertionSort byPLAsc (instrument_performance df))
    intro a b hab
    exact decide_eq_false (not_lt.mpr hab)
  have hDp : List.Pairwise
      (fun a b : InstrumentPerf => decide (a.total_pl < b.total_pl) = false)
      (List.insertionSort byPLDesc (instrument_performance df)) := by
    apply List.Pairwise.imp ?_
      (List.sorted_insertionSort byPLDesc (instrument_performance df))
    intro a b hab
    exact decide_eq_false (not_lt.mpr hab)
  have hA := countP_lt_of_mem_take
    (fun z w : InstrumentPerf => decide (z.total_pl < w.total_pl))
    (fun a => decide_eq_false (lt_irrefl a.total_pl))
    (List.insertionSort byPLAsc (instrument_performance df)) 10 y hAp hy
  have hD := countP_lt_of_mem_take
    (fun z w : InstrumentPerf => decide (w.total_pl < z.total_pl))
    (fun a => decide_eq_false (lt_irrefl a.total_pl))
    (List.insertionSort byPLDesc (instrument_performance df)) 10 x hDp hx
  rw [(List.perm_insertionSort byPLAsc (instrument_performance df)).countP_eq]
    at hA
  rw [(List.perm_insertionSort byPLDesc (instrument_performance df)).countP_eq]
    at hD
  have hsplit := List.length_eq_countP_add_countP
    (fun z : InstrumentPerf => decide (z.total_pl < y.total_pl))
    (instrument_performance df)
  have hmono : (instrument_performance df).countP
      (fun z => decide ¬((fun w : InstrumentPerf =>
        decide (w.total_pl < y.total_pl)) z = true)) ≤
      (instrument_performance df).countP
        (fun z => decide (x.total_pl < z.total_pl)) := by
    apply List.countP_mono_left
    intro z _ hz
    have hnz : ¬ (z.total_pl < y.total_pl) :=
      fun hlt => (of_decide_eq_true hz) (decide_eq_true hlt)
    exact decide_eq_true (lt_of_lt_of_le hcon (not_lt.mp hnz))
  have hA2 : (instrument_performance df).countP
      (fun z => decide (z.total_pl < y.total_pl)) < 10 := hA
  have hD2 : (instrument_performance df).countP
      (fun z => decide (x.total_pl < z.total_pl)) < 10 := hD
  have hsplit2 : (instrument_performance df).length =
      (instrument_performance df).countP
        (fun z => decide (z.total_pl < y.total_pl)) +
      (instrument_performance df).countP
        (fun z => decide ¬(decide (z.total_pl < y.total_pl) = true)) := hsplit
  have hmono2 : (instrument_performance df).countP
      (fun z => decide ¬(decide (z.total_pl < y.total_pl) = true)) ≤
      (instrument_performance df).countP
        (fun z => decide (x.total_pl < z.total_pl)) := hmono
  omega

/-- C6: each ranking keeps at most 10 rows (all instrument groups when
fewer than 10 exist, with no failure), the kept rows come from the
instrument-performance table, and with more than 20 distinct instruments
every total P/L in the bottom ranking is at most every total P/L in the
top ranking. -/
theorem instrument_rankings_spec (df : DataFrame) :
    (top_10_profitable df).length = min 10 (instrument_performance df).length ∧
    (bottom_10_losing df).length = min 10 (instrument_performance df).length ∧
    (top_10_profitable df).Subperm (instrument_performance df) ∧
    (bottom_10_losing df).Subperm (instrument_performance df) ∧
    (20 < (instrument_performance df).length →
      ((bottom_10_losing df).all (fun y =>
        (top_10_profitable df).all (fun x =>
          decide (y.total_pl ≤ x.total_pl)))) = true) := by
  refine ⟨?_, ?_, ?_, ?_, ?_⟩
  · unfold top_10_profitable
    rw [List.length_take, List.length_insertionSort]
  · unfold bottom_10_losing
    rw [List.length_take, List.length_insertionSort]
  · exact ((List.take_sublist 10 _).subperm).trans
      (List.perm_insertionSort byPLDesc (instrument_performance df)).subperm
  · exact ((List.take_sublist 10 _).subperm).trans
      (List.perm_insertionSort byPLAsc (instrument_performance df)).subperm
  · intro h
    rw [List.all_eq_true]
    intro y hy
    rw [List.all_eq_true]
    intro x hx
    exact decide_eq_true (top_bottom_separation df h y hy x hx)

/-- Table with 21 distinct instruments and pairwise distinct totals,
exercising the ranking separation. -/
def df21 : DataFrame :=
  [ { instrument := "A", sell_date := ⟨240, 1⟩, realized_profit_loss := -5,
      holding_period_days := 1 },
    { instrument := "B", sell_date := ⟨240, 2⟩, realized_profit_loss := -4,
      holding_period_days := 2 },
    { instrument := "C", sell_date := ⟨240, 3⟩, realized_profit_loss := -3,
      holding_period_days := 3 },
    { instrument := "D", sell_date := ⟨240, 4⟩, realized_profit_loss := -2,
      holding_period_days := 4 },
    { instrument := "E", sell_date := ⟨240, 5⟩, realized_profit_loss := -1,
      holding_period_days := 5 },
    { instrument := "F", sell_date := ⟨240, 6⟩, realized_profit_loss := 0,
      holding_period_days := 6 },
    { instrument := "G", sell_date := ⟨240, 7⟩, realized_profit_loss := 1,
      holding_period_days := 7 },
    { instrument := "H", sell_date := ⟨240, 8⟩, realized_profit_loss := 2,
      holding_period_days := 8 },
    { instrument := "I", sell_date := ⟨240, 9⟩, realized_profit_loss := 3,
      holding_period_days := 9 },
    { instrument := "J", sell_date := ⟨240, 10⟩, realized_profit_loss := 4,
      holding_period_days := 10 },
    { instrument := "K", sell_date := ⟨240, 11⟩, realized_profit_loss := 5,
      holding_period_days := 11 },
    { instrument := "L", sell_date := ⟨240, 12⟩, realized_profit_loss := 6,
      holding_period_days := 12 },
    { instrument := "M", sell_date := ⟨240, 13⟩, realized_profit_loss := 7,
      holding_period_days := 13 },
    { instrument := "N", sell_date := ⟨240, 14⟩, realized_profit_loss := 8,
      holding_period_days := 14 },
    { instrument := "O", sell_date := ⟨240, 15⟩, realized_profit_loss := 9,
      holding_period_days := 15 },
    { instrument := "P", sell_date := ⟨240, 16⟩, realized_profit_loss := 10,
      holding_period_days := 16 },
    { instrument := "Q", sell_date := ⟨240, 17⟩, realized_profit_loss := 11,
      holding_period_days := 17 },
    { instrument := "R", sell_date := ⟨240, 18⟩, realized_profit_loss := 12,
      holding_period_days := 18 },
    { instrument := "S", sell_date := ⟨240, 19⟩, realized_profit_loss := 13,
      holding_period_days := 19 },
    { instrument := "T", sell_date := ⟨240, 20⟩, realized_profit_loss := 14,
      holding_period_days := 20 },
    { instrument := "U", sell_date := ⟨240, 21⟩, realized_profit_loss := 15,
      holding_period_days := 21 } ]

/-- C6 witness: the separation hypothesis holds on the 21-instrument
table and the ranking comparison evaluates to true there. -/
theorem instrument_rankings_spec_witness :
    20 < (instrument_performance df21).length ∧
    ((bottom_10_losing df21).all (fun y =>
      (top_10_profitable df21).all (fun x =>
        decide (y.total_pl ≤ x.total_pl)))) = true :=
  ⟨by decide, (instrument_rankings_spec df21).2.2.2.2 (by decide)⟩

/-- Variable environment of the script after loading: the base table and
the derived views it computes in order (lines 28-42 and 114-121).  Every
pandas operation involved runs with `inplace=False` and so produces a new
frame; each step below therefore writes only its own view field. -/
structure ScriptEnv where
  closed_positions_df : DataFrame
  sorted_series : List (ClosedPosition × ℚ)
  monthly_series : List (Nat × ℚ)
  monthly_cum : List ℚ
  perf : List InstrumentPerf
  top10 : List InstrumentPerf
  bottom10 : List InstrumentPerf
  profitable : DataFrame
  losing : DataFrame
  combined : List (ClosedPosition × String)

/-- Environment right after `load_data` returns the table. -/
def initEnv (df : DataFrame) : ScriptEnv :=
  { closed_positions_df := df, sorted_series := [], monthly_series := [],
    monthly_cum := [], perf := [], top10 := [], bottom10 := [],
    profitable := [], losing := [], combined := [] }

/-- Lines 28-29: sort and attach the cumulative column. -/
def step_sort (e : ScriptEnv) : ScriptEnv :=
  { e with sorted_series := cumulative_pl_series e.closed_positions_df }

/-- Lines 32-33: resample monthly and attach the cumulative column. -/
def step_monthly (e : ScriptEnv) : ScriptEnv :=
  { e with monthly_series := monthly_pl e.closed_positions_df,
           monthly_cum := monthly_cumulative_pl e.closed_positions_df }

/-- Lines 36-42: group by instrument and build both rankings. -/
def step_perf (e : ScriptEnv) : ScriptEnv :=
  { e with perf := instrument_performance e.closed_positions_df,
           top10 := top_10_profitable e.closed_positions_df,
           bottom10 := bottom_10_losing e.closed_positions_df }

/-- Lines 114-121: the outcome partition and the combined frame. -/
def step_partition (e : ScriptEnv) : ScriptEnv :=
  { e with profitable := profitable_trades e.closed_positions_df,
           losing := losing_trades e.closed_positions_df,
           combined := combined_holding e.closed_positions_df }

/-- All derivation steps of the script, in source order. -/
def runScript (df : DataFrame) : ScriptEnv :=
  step_partition (step_perf (step_monthly (step_sort (initEnv df))))

/-- C9: running every derivation leaves the loaded base table exactly as
it was, and each derived view is the pure function of that unchanged
base table. -/
theorem base_table_unchanged (df : DataFrame) :
    (runScript df).closed_positions_df = df ∧
    (runScript df).sorted_series = cumulative_pl_series df ∧
    (runScript df).monthly_series = monthly_pl df ∧
    (runScript df).monthly_cum = monthly_cumulative_pl df ∧
    (runScript df).perf = instrument_performance df ∧
    (runScript df).top10 = top_10_profitable df ∧
    (runScript df).bottom10 = bottom_10_losing df ∧
    (runScript df).profitable = profitable_trades df ∧
    (runScript df).losing = losing_trades df ∧
    (runScript df).combined = combined_holding df :=
  ⟨rfl, rfl, rfl, rfl, rfl, rfl, rfl, rfl, rfl, rfl⟩
